import Mathlib

/-!
Verification of the promotion-watcher service (src/main.ts together with
src/dtos/check-promotions-epicgames-dto.ts).

The embedding below translates the runtime behaviour of the TypeScript
source into Lean.  JavaScript values that may be absent at runtime
(fields an upstream JSON payload can omit, even though the DTO interface
declares them) are modelled as Option; a thrown JavaScript exception is
modelled as the error branch of Except, and the try/catch wrapper of
checkPromotions catches it; the Result type of the optionals library is
modelled as Except, and its Option type as Lean Option.
-/

namespace PromoWatcher

/-- One inner offer entry, DTO interfaces PromotionalOffer2 and
PromotionalOffer3: an offer window whose dates arrive as strings in the
JSON payload.  The discountSetting field is never read by main.ts and is
omitted. -/
structure PromotionalOfferEntry where
  startDate : String
  endDate : String
  deriving Repr, DecidableEq

/-- One window group, DTO interfaces PromotionalOffer and
UpcomingPromotionalOffer (both have this single field). -/
structure PromotionalOffer where
  promotionalOffers : List PromotionalOfferEntry
  deriving Repr, DecidableEq

/-- DTO interface Promotions: the two lists of window groups. -/
structure Promotions where
  promotionalOffers : List PromotionalOffer
  upcomingPromotionalOffers : List PromotionalOffer
  deriving Repr, DecidableEq

/-- DTO interface Element, restricted to the fields main.ts reads:
title, description, productSlug and promotions.  The payload is
externally controlled, so the three string fields may be absent at
runtime (JavaScript undefined), which Option models; the remaining DTO
fields are never dereferenced by the program. -/
structure Element where
  title : Option String
  description : Option String
  productSlug : Option String
  promotions : Promotions
  deriving Repr, DecidableEq

/-- Reads a non-empty run of decimal digits as a natural number,
rejecting any other character. -/
def parseDigitsAux : List Char → Nat → Option Nat
  | [], acc => some acc
  | c :: cs, acc =>
    if c.isDigit then parseDigitsAux cs (acc * 10 + (c.toNat - 48)) else none

/-- Models JavaScript Date construction from a string, new Date(s):
some timestamp for a parseable string, none for an Invalid Date.  The
claims under verification depend only on which construction is chosen
and on validity, never on calendar arithmetic, so parseable date strings
are represented by decimal literals (milliseconds since the epoch) and
any other string stands for an unparseable date. -/
def newDate (s : String) : Option Int :=
  match s.data with
  | [] => none
  | cs => (parseDigitsAux cs 0).map Int.ofNat

/-- A JavaScript value appearing in a boolean position: here either a
boolean or a string, which is what the condition on line 64 of main.ts
produces. -/
inductive JSVal where
  | bool : Bool → JSVal
  | str : String → JSVal
  deriving Repr, DecidableEq

/-- JavaScript truthiness: a boolean is itself; a string is truthy
exactly when non-empty. -/
def JSVal.truthy : JSVal → Bool
  | .bool b => b
  | .str s => !s.isEmpty

/-- JavaScript short-circuit or on values: yields the left operand when
it is truthy, otherwise the right operand. -/
def jsOr (a b : JSVal) : JSVal := if a.truthy then a else b

/-- The ternary condition on line 64 of main.ts, written there as
productSlug === "[]" || "" : the strict comparison or-ed with the empty
string literal, the whole expression then read for truthiness.  An
absent productSlug compares unequal to "[]". -/
def slugCondition (productSlug : Option String) : Bool :=
  (jsOr (.bool (decide (productSlug = some "[]"))) (.str "")).truthy

/-- The fixed seasonal-sale fallback URL of main.ts line 65. -/
def fallbackUrl : String :=
  "https://store.epicgames.com/pt-BR/sales-and-specials/holiday-sale"

/-- The fixed product-page URL template of main.ts line 66, up to the
interpolation point. -/
def productUrlBase : String := "https://store.epicgames.com/pt-BR/p/"

/-- JavaScript template-literal interpolation of a possibly absent
string: undefined interpolates as the text undefined. -/
def interpolateSlug : Option String → String
  | some s => s
  | none => "undefined"

/-- URL resolution, main.ts lines 64 to 66. -/
def resolveUrl (productSlug : Option String) : String :=
  if slugCondition productSlug then fallbackUrl
  else productUrlBase ++ interpolateSlug productSlug

/-- The double indexing groups[0].promotionalOffers[0] of main.ts lines
69 to 84.  Indexing an array out of range yields undefined, and reading
a property of undefined throws a TypeError, modelled as the error
branch. -/
def firstWindow (groups : List PromotionalOffer) : Except String PromotionalOfferEntry :=
  match groups with
  | [] => .error "TypeError: cannot read properties of undefined (reading promotionalOffers)"
  | g :: _ =>
    match g.promotionalOffers with
    | [] => .error "TypeError: cannot read properties of undefined (reading a date field)"
    | w :: _ => .ok w

/-- The startDate expression of main.ts lines 67 to 75: from the first
currently-active window when promotionalOffers is non-empty, otherwise
from the first upcoming window. -/
def startDateExpr (p : Promotions) : Except String (Option Int) :=
  if p.promotionalOffers.length > 0 then
    (firstWindow p.promotionalOffers).map (fun w => newDate w.startDate)
  else
    (firstWindow p.upcomingPromotionalOffers).map (fun w => newDate w.startDate)

/-- The endDate expression of main.ts lines 76 to 84, same selection as
the startDate expression. -/
def endDateExpr (p : Promotions) : Except String (Option Int) :=
  if p.promotionalOffers.length > 0 then
    (firstWindow p.promotionalOffers).map (fun w => newDate w.endDate)
  else
    (firstWindow p.upcomingPromotionalOffers).map (fun w => newDate w.endDate)

/-- The candidate record assembled on main.ts lines 61 to 84 and passed
to Promotion.New: title and description straight from the raw element
(possibly absent), the resolved URL, and the two Date objects (possibly
Invalid Dates). -/
structure PromotionProps where
  title : Option String
  description : Option String
  url : String
  startDate : Option Int
  endDate : Option Int
  deriving Repr, DecidableEq

/-- The validated output entity of main.ts lines 22 to 40. -/
structure Promotion where
  title : String
  description : String
  url : String
  startDate : Int
  endDate : Int
  deriving Repr, DecidableEq

/-- Splits a character list at the first occurrence of the separator
colon-slash-slash, yielding the part before it and the part after. -/
def schemeSplit : List Char → Option (List Char × List Char)
  | [] => none
  | c :: cs =>
    if c == ':' then
      match cs with
      | a :: b :: rest => if a == '/' && b == '/' then some ([], rest) else none
      | _ => none
    else
      match schemeSplit cs with
      | some (sch, rest) => some (c :: sch, rest)
      | none => none

/-- Models the absolute-URL check of z.string().url(), which parses the
string with the WHATWG URL constructor: an alphabetic non-empty scheme,
the separator, and a non-empty remainder. -/
def isValidURL (s : String) : Bool :=
  match schemeSplit s.data with
  | some (sch, rest) => !sch.isEmpty && sch.all Char.isAlpha && !rest.isEmpty
  | none => false

/-- promotionScheme.safeParse, main.ts lines 12 to 18: title and
description must be present strings, url must parse as an absolute URL,
startDate and endDate must be valid Date instances (z.date rejects an
Invalid Date).  A failure carries a field-level message; zod aggregates
all field errors while this model reports the first, which no claim
distinguishes since errors are opaque diagnostics. -/
def promotionScheme.safeParse (props : PromotionProps) : Except String Promotion :=
  match props.title with
  | none => .error "title: Required, expected string"
  | some t =>
    match props.description with
    | none => .error "description: Required, expected string"
    | some d =>
      if !isValidURL props.url then .error "url: Invalid url"
      else
        match props.startDate with
        | none => .error "startDate: Invalid date"
        | some s =>
          match props.endDate with
          | none => .error "endDate: Invalid date"
          | some e =>
            .ok { title := t, description := d, url := props.url
                  startDate := s, endDate := e }

/-- The validating factory Promotion.New, main.ts lines 33 to 39: Err
with the stringified validation error on failure, Ok with the freshly
constructed Promotion on success. -/
def Promotion.New (props : PromotionProps) : Except String Promotion :=
  promotionScheme.safeParse props

/-- The body of the map callback on main.ts lines 60 to 85 for one raw
element: evaluate the startDate and endDate expressions (either may
throw, propagating out of the callback), resolve the URL, and hand the
candidate to Promotion.New.  The outer Except is a thrown exception;
the inner Except is the Result returned by Promotion.New. -/
def processElement (promo : Element) : Except String (Except String Promotion) :=
  match startDateExpr promo.promotions with
  | .error m => .error m
  | .ok s =>
    match endDateExpr promo.promotions with
    | .error m => .error m
    | .ok e =>
      .ok (Promotion.New
        { title := promo.title
          description := promo.description
          url := resolveUrl promo.productSlug
          startDate := s
          endDate := e })

/-- Equality of exception-carrying results is decidable, so concrete
runs of the embedding can be checked by evaluation. -/
instance {ε α : Type} [DecidableEq ε] [DecidableEq α] : DecidableEq (Except ε α) := fun x y =>
  match x, y with
  | .error a, .error b =>
    if h : a = b then .isTrue (by rw [h]) else .isFalse (by simp [h])
  | .error _, .ok _ => .isFalse (by simp)
  | .ok _, .error _ => .isFalse (by simp)
  | .ok a, .ok b =>
    if h : a = b then .isTrue (by rw [h]) else .isFalse (by simp [h])

/-- Array.prototype.map under exceptions: an exception thrown by the
callback on any element aborts the whole traversal and propagates. -/
def mapME (f : α → Except String β) : List α → Except String (List β)
  | [] => .ok []
  | a :: as =>
    match f a with
    | .error m => .error m
    | .ok b =>
      match mapME f as with
      | .error m => .error m
      | .ok bs => .ok (b :: bs)

/-- The isOk test of the optionals Result type, used by the filter on
main.ts lines 88 to 90. -/
def isOkE (r : Except String Promotion) : Bool :=
  match r with
  | .ok _ => true
  | .error _ => false

/-- Result.unwrap, main.ts line 101: the Ok value, or a thrown error on
an Err. -/
def jsUnwrap (r : Except String Promotion) : Except String Promotion :=
  match r with
  | .ok p => .ok p
  | .error _ => .error "called unwrap on an Err value"

/-- Result.unwrapErr, main.ts line 94: the Err payload, or a thrown
error on an Ok. -/
def jsUnwrapErr (r : Except String Promotion) : Except String String :=
  match r with
  | .ok _ => .error "called unwrapErr on an Ok value"
  | .error m => .ok m

/-- Normalization of one batch, main.ts lines 60 to 103: map every
element through the promotion builder, keep the Ok results, return None
when there is no Ok result (after computing the diagnostic list of
unwrapped errors for the log call), otherwise Some of the unwrapped Ok
values.  The outer Except is an exception escaping to the try/catch. -/
def normalizeBatch (elements : List Element) : Except String (Option (List Promotion)) :=
  match mapME processElement elements with
  | .error m => .error m
  | .ok promotionsResults =>
    let validPromoResults := promotionsResults.filter isOkE
    if validPromoResults.length = 0 then
      match mapME jsUnwrapErr promotionsResults with
      | .error m => .error m
      | .ok _invalidPromos => .ok none
    else
      match mapME jsUnwrap validPromoResults with
      | .error m => .error m
      | .ok validPromos => .ok (some validPromos)

/-- What one fetch cycle can hand to checkPromotions: a transport
failure thrown by fetch, or an HTTP response with its ok flag and a
body that either parses into the expected element list or throws while
being parsed or destructured (malformed JSON, a missing data, Catalog or
searchStore key). -/
inductive FetchOutcome where
  | transportFailure : String → FetchOutcome
  | httpResponse : Bool → Except String (List Element) → FetchOutcome
  deriving Repr

/-- The body of checkPromotions inside the try block, main.ts lines 47
to 103: rethrown transport failures, the early None return on a non-ok
response, body destructuring, then batch normalization. -/
def checkPromotionsBody (f : FetchOutcome) : Except String (Option (List Promotion)) :=
  match f with
  | .transportFailure m => .error m
  | .httpResponse ok body =>
    if !ok then .ok none
    else
      match body with
      | .error m => .error m
      | .ok elements => normalizeBatch elements

/-- checkPromotions, main.ts lines 46 to 109: the whole body runs under
try/catch, and any exception degrades to None. -/
def checkPromotions (f : FetchOutcome) : Option (List Promotion) :=
  match checkPromotionsBody f with
  | .ok r => r
  | .error _ => none

/-- The structure logged once per successful cycle, main.ts lines
115 to 118. -/
structure PromoOutput where
  updatedAt : Int
  promotions : List Promotion
  deriving Repr, DecidableEq

/-- handlePromotions, main.ts lines 112 to 122, as a function of the
cycle result and the current time: nothing is emitted on None, and on
Some the output structure is emitted to the sink. -/
def handlePromotions (now : Int) (promosOption : Option (List Promotion)) : Option PromoOutput :=
  match promosOption with
  | none => none
  | some promos => some { updatedAt := now, promotions := promos }

/-- The value carried by an Ok result, none for an Err: the per-result
projection underlying the filter-then-unwrap pipeline of main.ts lines
88 to 102. -/
def okValue : Except String Promotion → Option Promotion
  | .ok p => some p
  | .error _ => none

/-- The promotion contributed by one raw element: some promotion when
the map callback neither throws nor returns an Err, none otherwise. -/
def elemPromotion (e : Element) : Option Promotion :=
  match processElement e with
  | .ok r => okValue r
  | .error _ => none

/-- A concrete offer window, the round-trip example of the spec with
the dates rendered as epoch milliseconds. -/
def sampleWindow : PromotionalOfferEntry :=
  { startDate := "1704067200000", endDate := "1704672000000" }

/-- A second concrete offer window, used as upcoming content. -/
def sampleUpcomingWindow : PromotionalOfferEntry :=
  { startDate := "999", endDate := "1000" }

/-- Concrete promotions data with one currently-active window and no
upcoming window. -/
def samplePromotions : Promotions :=
  { promotionalOffers := [{ promotionalOffers := [sampleWindow] }]
    upcomingPromotionalOffers := [] }

/-- Concrete promotions data where both lists are non-empty. -/
def sampleBothListsPromotions : Promotions :=
  { promotionalOffers := [{ promotionalOffers := [sampleWindow] }]
    upcomingPromotionalOffers := [{ promotionalOffers := [sampleUpcomingWindow] }] }

/-- A raw element that passes validation (the round-trip example of the
spec). -/
def sampleValidElement : Element :=
  { title := some "A", description := some "B", productSlug := some "abc"
    promotions := samplePromotions }

/-- The same element with its title absent: fails validation. -/
def sampleNoTitleElement : Element :=
  { sampleValidElement with title := none }

/-- The same element with both offer lists empty: its window resolution
dereferences an absent entry. -/
def sampleBothEmptyElement : Element :=
  { sampleValidElement with
    promotions := { promotionalOffers := [], upcomingPromotionalOffers := [] } }

/-- The promotion that the valid sample element normalizes to. -/
def samplePromotion : Promotion :=
  { title := "A", description := "B"
    url := "https://store.epicgames.com/pt-BR/p/abc"
    startDate := 1704067200000, endDate := 1704672000000 }

/-- A successful mapME traversal returns one output per input. -/
lemma mapME_ok_length {α β : Type} (f : α → Except String β) :
    ∀ (l : List α) (res : List β), mapME f l = .ok res → res.length = l.length := by
  intro l
  induction l with
  | nil =>
    intro res h
    simp [mapME] at h
    simp [h]
  | cons a as ih =>
    intro res h
    simp only [mapME] at h
    cases hf : f a with
    | error m => rw [hf] at h; exact absurd h (by simp)
    | ok b =>
      rw [hf] at h
      cases hm : mapME f as with
      | error m => rw [hm] at h; exact absurd h (by simp)
      | ok bs =>
        rw [hm] at h
        simp at h
        subst h
        simp [ih bs hm]

/-- Unwrapping the Ok results kept by the filter never throws and
yields exactly the values of the Ok results, in order. -/
lemma mapME_jsUnwrap_filter (rs : List (Except String Promotion)) :
    mapME jsUnwrap (rs.filter isOkE) = .ok (rs.filterMap okValue) := by
  induction rs with
  | nil => simp [List.filter, List.filterMap, mapME]
  | cons r rs ih =>
    cases r with
    | ok p => simp [List.filter, List.filterMap, mapME, isOkE, jsUnwrap, okValue, ih]
    | error m => simp [List.filter, List.filterMap, isOkE, okValue, ih]

/-- On a batch whose traversal throws no exception, the Ok values of
the per-element results are exactly the per-element promotions of the
input elements, in input order. -/
lemma mapME_process_filterMap :
    ∀ (elements : List Element) (rs : List (Except String Promotion)),
      mapME processElement elements = .ok rs →
      rs.filterMap okValue = elements.filterMap elemPromotion := by
  intro elements
  induction elements with
  | nil =>
    intro rs h
    simp [mapME] at h
    simp [h, List.filterMap]
  | cons e es ih =>
    intro rs h
    simp only [mapME] at h
    cases hf : processElement e with
    | error m => rw [hf] at h; exact absurd h (by simp)
    | ok r =>
      rw [hf] at h
      cases hm : mapME processElement es with
      | error m => rw [hm] at h; exact absurd h (by simp)
      | ok rs0 =>
        rw [hm] at h
        simp at h
        subst h
        cases r with
        | ok p => simp [List.filterMap, okValue, elemPromotion, hf, ih rs0 hm]
        | error m => simp [List.filterMap, okValue, elemPromotion, hf, ih rs0 hm]

/-- When every per-element result is an Err, unwrapping the errors for
the diagnostic log never throws. -/
lemma mapME_jsUnwrapErr_allErr :
    ∀ (rs : List (Except String Promotion)),
      (∀ r ∈ rs, isOkE r = false) →
      ∃ ms, mapME jsUnwrapErr rs = .ok ms := by
  intro rs
  induction rs with
  | nil => exact fun _ => ⟨[], by simp [mapME]⟩
  | cons r rs ih =>
    intro h
    obtain ⟨ms, hms⟩ := ih (fun r hr => h r (List.mem_cons_of_mem _ hr))
    cases r with
    | ok p => exact absurd (h (.ok p) (List.mem_cons_self _ _)) (by simp [isOkE])
    | error m => exact ⟨m :: ms, by simp [mapME, jsUnwrapErr, hms]⟩

/-- A batch in which no per-element result is Ok has an empty filtered
list. -/
lemma filter_isOkE_nil (rs : List (Except String Promotion))
    (h : ∀ r ∈ rs, isOkE r = false) : rs.filter isOkE = [] := by
  induction rs with
  | nil => simp
  | cons r rs ih =>
    have hr := h r (List.mem_cons_self _ _)
    simp [List.filter, hr, ih (fun r hr => h r (List.mem_cons_of_mem _ hr))]

/-- Whenever normalization succeeds with a Some, the list inside is the
ordered list of per-element promotions and is non-empty. -/
lemma normalizeBatch_some_eq (elements : List Element) (l : List Promotion)
    (h : normalizeBatch elements = .ok (some l)) :
    l = elements.filterMap elemPromotion ∧ l ≠ [] := by
  unfold normalizeBatch at h
  cases hm : mapME processElement elements with
  | error m => rw [hm] at h; exact absurd h (by simp)
  | ok rs =>
    rw [hm] at h
    simp only at h
    by_cases hl : (rs.filter isOkE).length = 0
    · rw [if_pos hl] at h
      cases he : mapME jsUnwrapErr rs with
      | error m => rw [he] at h; exact absurd h (by simp)
      | ok ms => rw [he] at h; exact absurd h (by simp)
    · rw [if_neg hl] at h
      rw [mapME_jsUnwrap_filter rs] at h
      simp at h
      constructor
      · rw [← h, mapME_process_filterMap elements rs hm]
      · intro hnil
        apply hl
        have hlen := mapME_ok_length jsUnwrap (rs.filter isOkE) (rs.filterMap okValue)
          (mapME_jsUnwrap_filter rs)
        rw [← hlen, h, hnil]
        rfl

/-- The cycle result never presents an empty list inside Some. -/
lemma checkPromotions_some_nonempty (f : FetchOutcome) (l : List Promotion)
    (h : checkPromotions f = some l) : l ≠ [] := by
  unfold checkPromotions at h
  cases hb : checkPromotionsBody f with
  | error m => rw [hb] at h; exact absurd h (by simp)
  | ok r =>
    rw [hb] at h
    simp at h
    subst h
    cases f with
    | transportFailure m => exact absurd hb (by simp [checkPromotionsBody])
    | httpResponse ok body =>
      cases ok with
      | false => simp [checkPromotionsBody] at hb
      | true =>
        cases body with
        | error m => simp [checkPromotionsBody] at hb
        | ok elements =>
          simp [checkPromotionsBody] at hb
          exact (normalizeBatch_some_eq elements l hb).2

/-- A second raw element that passes validation, with a distinct
title. -/
def sampleValidElement2 : Element :=
  { sampleValidElement with title := some "C" }

/-- The promotion the second valid sample element normalizes to. -/
def samplePromotion2 : Promotion :=
  { samplePromotion with title := "C" }

/-- The candidate record the valid sample element assembles. -/
def sampleProps : PromotionProps :=
  { title := some "A", description := some "B"
    url := "https://store.epicgames.com/pt-BR/p/abc"
    startDate := some 1704067200000, endDate := some 1704672000000 }

/-- C1: evaluation at the failing input.  An element whose two offer
lists are both empty makes the map callback of checkPromotions throw a
TypeError instead of rejecting just that element, and its presence in a
batch changes the outcome of the other elements: a batch holding a
perfectly valid element next to it degrades to none, while the valid
element alone yields its promotion. -/
theorem bothEmptyElement_throws_and_discards_batch :
    processElement sampleBothEmptyElement =
      .error "TypeError: cannot read properties of undefined (reading promotionalOffers)" ∧
    checkPromotions (.httpResponse true (.ok [sampleValidElement])) =
      some [samplePromotion] ∧
    checkPromotions (.httpResponse true (.ok [sampleValidElement, sampleBothEmptyElement])) =
      none := by
  decide

/-- C2: evaluation at the failing inputs.  The condition on line 64 of
main.ts or-s the comparison with the empty string literal, which is
falsy, so only the literal placeholder selects the fallback URL: an
empty productSlug is interpolated into the product template, and an
absent one interpolates as the text undefined. -/
theorem resolveUrl_empty_and_absent_slug_use_template :
    resolveUrl (some "") = "https://store.epicgames.com/pt-BR/p/" ∧
    resolveUrl none = "https://store.epicgames.com/pt-BR/p/undefined" ∧
    resolveUrl (some "") ≠ fallbackUrl ∧
    resolveUrl none ≠ fallbackUrl ∧
    resolveUrl (some "[]") = fallbackUrl ∧
    resolveUrl (some "abc") = "https://store.epicgames.com/pt-BR/p/abc" := by
  refine ⟨rfl, rfl, by decide, by decide, rfl, rfl⟩

/-- C3: checkPromotions always returns a value, and every failure mode
degrades to none: a transport failure thrown by fetch, a non-ok HTTP
response, a body that throws while being parsed or destructured, and a
batch whose per-element traversal throws. -/
theorem checkPromotions_never_escapes (f : FetchOutcome) :
    (checkPromotions f = none ∨ ∃ l, checkPromotions f = some l) ∧
    (∀ m, f = .transportFailure m → checkPromotions f = none) ∧
    (∀ b, f = .httpResponse false b → checkPromotions f = none) ∧
    (∀ ok m, f = .httpResponse ok (.error m) → checkPromotions f = none) ∧
    (∀ elements m, f = .httpResponse true (.ok elements) →
      mapME processElement elements = .error m → checkPromotions f = none) := by
  refine ⟨?_, ?_, ?_, ?_, ?_⟩
  · cases h : checkPromotions f with
    | none => exact Or.inl rfl
    | some l => exact Or.inr ⟨l, rfl⟩
  · rintro m rfl
    rfl
  · rintro b rfl
    cases b <;> rfl
  · rintro ok m rfl
    cases ok <;> rfl
  · rintro elements m rfl hmap
    simp [checkPromotions, checkPromotionsBody, normalizeBatch, hmap]

/-- C3 witness: a concrete transport failure degrades to none. -/
theorem checkPromotions_never_escapes_witness :
    checkPromotions (.transportFailure "network error") = none :=
  (checkPromotions_never_escapes (.transportFailure "network error")).2.1 "network error" rfl

/-- C4: when promotionalOffers is non-empty the resolved window comes
from its first group and first entry, whatever upcomingPromotionalOffers
holds; when promotionalOffers is empty and upcomingPromotionalOffers is
non-empty, the window comes from the first upcoming group and entry. -/
theorem window_resolution_correct (p : Promotions) (g : PromotionalOffer)
    (gs : List PromotionalOffer) (w : PromotionalOfferEntry)
    (ws : List PromotionalOfferEntry) :
    (p.promotionalOffers = g :: gs → g.promotionalOffers = w :: ws →
      startDateExpr p = .ok (newDate w.startDate) ∧
      endDateExpr p = .ok (newDate w.endDate)) ∧
    (p.promotionalOffers = [] → p.upcomingPromotionalOffers = g :: gs →
      g.promotionalOffers = w :: ws →
      startDateExpr p = .ok (newDate w.startDate) ∧
      endDateExpr p = .ok (newDate w.endDate)) := by
  constructor
  · intro h1 h2
    constructor <;> simp [startDateExpr, endDateExpr, firstWindow, Except.map, h1, h2]
  · intro h1 h2 h3
    constructor <;> simp [startDateExpr, endDateExpr, firstWindow, Except.map, h1, h2, h3]

/-- C4 witness: concrete promotions data with both lists non-empty
resolves its window from the currently-active list. -/
theorem window_resolution_correct_witness :
    startDateExpr sampleBothListsPromotions = .ok (newDate sampleWindow.startDate) ∧
    endDateExpr sampleBothListsPromotions = .ok (newDate sampleWindow.endDate) :=
  (window_resolution_correct sampleBothListsPromotions
    { promotionalOffers := [sampleWindow] } [] sampleWindow []).1 rfl rfl

/-- C5: a two-element batch with one valid and one invalid element, in
either order, traverses without throwing, keeps exactly one Ok result
and exactly one Err result in the per-element result list, and
normalizes to Some of the single valid promotion. -/
theorem one_valid_one_invalid_batch (e₁ e₂ : Element) (p : Promotion) (m : String)
    (h₁ : processElement e₁ = .ok (.ok p))
    (h₂ : processElement e₂ = .ok (.error m)) :
    (mapME processElement [e₁, e₂] = .ok [.ok p, .error m] ∧
      ([Except.ok p, Except.error m].filter isOkE).length = 1 ∧
      ([Except.ok p, Except.error m].filter (fun r => !isOkE r)).length = 1 ∧
      normalizeBatch [e₁, e₂] = .ok (some [p])) ∧
    (mapME processElement [e₂, e₁] = .ok [.error m, .ok p] ∧
      ([Except.error m, Except.ok p].filter isOkE).length = 1 ∧
      ([Except.error m, Except.ok p].filter (fun r => !isOkE r)).length = 1 ∧
      normalizeBatch [e₂, e₁] = .ok (some [p])) := by
  constructor
  · refine ⟨?_, by simp [isOkE], by simp [isOkE], ?_⟩
    · simp [mapME, h₁, h₂]
    · simp [normalizeBatch, mapME, h₁, h₂, isOkE, jsUnwrap, List.filter]
  · refine ⟨?_, by simp [isOkE], by simp [isOkE], ?_⟩
    · simp [mapME, h₁, h₂]
    · simp [normalizeBatch, mapME, h₁, h₂, isOkE, jsUnwrap, List.filter]

/-- C5 witness: the concrete valid element next to the concrete
element with no title. -/
theorem one_valid_one_invalid_batch_witness :
    normalizeBatch [sampleValidElement, sampleNoTitleElement] =
      .ok (some [samplePromotion]) := by
  have h := one_valid_one_invalid_batch sampleValidElement sampleNoTitleElement
    samplePromotion "title: Required, expected string" (by decide) (by decide)
  exact h.1.2.2.2

/-- C6: a batch in which every per-element result is a rejection makes
the cycle return none and nothing reaches the sink; and whenever
handlePromotions emits an output, its promotion list is non-empty. -/
theorem all_rejected_no_emission :
    (∀ (elements : List Element) (rs : List (Except String Promotion)),
      mapME processElement elements = .ok rs →
      (∀ r ∈ rs, isOkE r = false) →
      checkPromotions (.httpResponse true (.ok elements)) = none ∧
      ∀ now, handlePromotions now
        (checkPromotions (.httpResponse true (.ok elements))) = none) ∧
    (∀ (f : FetchOutcome) (now : Int) (out : PromoOutput),
      handlePromotions now (checkPromotions f) = some out → out.promotions ≠ []) := by
  constructor
  · intro elements rs hm hall
    have hfilter := filter_isOkE_nil rs hall
    obtain ⟨ms, hms⟩ := mapME_jsUnwrapErr_allErr rs hall
    have hnorm : normalizeBatch elements = .ok none := by
      simp [normalizeBatch, hm, hfilter, hms]
    have hcp : checkPromotions (.httpResponse true (.ok elements)) = none := by
      simp [checkPromotions, checkPromotionsBody, hnorm]
    exact ⟨hcp, fun now => by simp [hcp, handlePromotions]⟩
  · intro f now out h
    cases hc : checkPromotions f with
    | none => rw [hc] at h; simp [handlePromotions] at h
    | some l =>
      rw [hc] at h
      simp [handlePromotions] at h
      have hne := checkPromotions_some_nonempty f l hc
      rw [← h]
      simpa using hne

/-- C6 witness: a concrete batch whose only element is rejected emits
nothing. -/
theorem all_rejected_no_emission_witness :
    handlePromotions 0
      (checkPromotions (.httpResponse true (.ok [sampleNoTitleElement]))) = none := by
  have h := all_rejected_no_emission.1 [sampleNoTitleElement]
    [.error "title: Required, expected string"] (by decide) (by decide)
  exact h.2 0

/-- C7: the validating factory.  Every promotion it returns carries the
present title and description, the unchanged url which parses as an
absolute URL, and the valid timestamps; and on any input failing one of
the checks it returns an error, so no partially-valid instance is ever
produced. -/
theorem Promotion_New_validates (props : PromotionProps) :
    (∀ p, Promotion.New props = .ok p →
      props.title = some p.title ∧ props.description = some p.description ∧
      p.url = props.url ∧ isValidURL p.url = true ∧
      props.startDate = some p.startDate ∧ props.endDate = some p.endDate) ∧
    ((props.title = none ∨ props.description = none ∨
      isValidURL props.url = false ∨
      props.startDate = none ∨ props.endDate = none) →
      ∃ m, Promotion.New props = .error m) := by
  have key : ∀ p, Promotion.New props = .ok p →
      props.title = some p.title ∧ props.description = some p.description ∧
      p.url = props.url ∧ isValidURL p.url = true ∧
      props.startDate = some p.startDate ∧ props.endDate = some p.endDate := by
    intro p hp
    unfold Promotion.New promotionScheme.safeParse at hp
    cases ht : props.title with
    | none => rw [ht] at hp; cases hp
    | some t =>
      rw [ht] at hp
      cases hd : props.description with
      | none => rw [hd] at hp; cases hp
      | some d =>
        rw [hd] at hp
        cases hu : isValidURL props.url with
        | false => rw [hu] at hp; simp at hp
        | true =>
          rw [hu] at hp
          simp only [Bool.not_true, Bool.false_eq_true, if_false] at hp
          cases hs : props.startDate with
          | none => rw [hs] at hp; cases hp
          | some s =>
            rw [hs] at hp
            cases he : props.endDate with
            | none => rw [he] at hp; cases hp
            | some e =>
              rw [he] at hp
              simp at hp
              subst hp
              simp [ht, hd, hu, hs, he]
  refine ⟨key, ?_⟩
  intro hbad
  cases hN : Promotion.New props with
  | error m => exact ⟨m, rfl⟩
  | ok p =>
    obtain ⟨h1, h2, h3, h4, h5, h6⟩ := key p hN
    rcases hbad with h | h | h | h | h
    · rw [h] at h1; cases h1
    · rw [h] at h2; cases h2
    · rw [h3, h] at h4; cases h4
    · rw [h] at h5; cases h5
    · rw [h] at h6; cases h6

/-- C7 witness: the concrete candidate of the valid sample element is
accepted and satisfies every check. -/
theorem Promotion_New_validates_witness :
    sampleProps.title = some samplePromotion.title ∧
    sampleProps.description = some samplePromotion.description ∧
    samplePromotion.url = sampleProps.url ∧
    isValidURL samplePromotion.url = true ∧
    sampleProps.startDate = some samplePromotion.startDate ∧
    sampleProps.endDate = some samplePromotion.endDate :=
  (Promotion_New_validates sampleProps).1 samplePromotion (by decide)

/-- C8: normalization is a pure function of the element list in this
embedding, exactly as lines 60 to 104 of main.ts read no state besides
their input, so two normalizations of the same raw batch agree. -/
theorem normalizeBatch_deterministic (elements : List Element)
    (r₁ r₂ : Except String (Option (List Promotion)))
    (h₁ : normalizeBatch elements = r₁) (h₂ : normalizeBatch elements = r₂) :
    r₁ = r₂ := by
  rw [← h₁, ← h₂]

/-- C8 witness: two runs on the concrete valid batch. -/
theorem normalizeBatch_deterministic_witness :
    (Except.ok (some [samplePromotion]) : Except String (Option (List Promotion))) =
      .ok (some [samplePromotion]) :=
  normalizeBatch_deterministic [sampleValidElement] _ _ (by decide) (by decide)

/-- C9: checkPromotions never returns Some of an empty list: the empty
case is always represented as none. -/
theorem checkPromotions_some_imp_nonempty (f : FetchOutcome) (l : List Promotion)
    (h : checkPromotions f = some l) : l ≠ [] :=
  checkPromotions_some_nonempty f l h

/-- C9 witness: the concrete successful cycle returns a non-empty
list. -/
theorem checkPromotions_some_imp_nonempty_witness :
    [samplePromotion] ≠ [] :=
  checkPromotions_some_imp_nonempty (.httpResponse true (.ok [sampleValidElement]))
    [samplePromotion] (by decide)

/-- C10: whenever normalization succeeds with Some, the returned list
is the filterMap of the per-element promotion over the input elements,
hence the valid promotions appear in the relative order of their
elements in the input. -/
theorem normalizeBatch_preserves_order (elements : List Element) (l : List Promotion)
    (h : normalizeBatch elements = .ok (some l)) :
    l = elements.filterMap elemPromotion :=
  (normalizeBatch_some_eq elements l h).1

/-- C10 witness: a three-element batch with a rejected element between
two valid ones keeps the two promotions in input order. -/
theorem normalizeBatch_preserves_order_witness :
    [samplePromotion, samplePromotion2] =
      [sampleValidElement, sampleNoTitleElement,
        sampleValidElement2].filterMap elemPromotion :=
  normalizeBatch_preserves_order
    [sampleValidElement, sampleNoTitleElement, sampleValidElement2]
    [samplePromotion, samplePromotion2] (by decide)

end PromoWatcher
